import Mathlib

/-!
Shallow embedding of the session-scoped conversational retrieval pipeline of
the Rag-ChatBot repository, and proofs of the specified properties.

The embedded code lives in:
  * `app/utils/chatbot.py`        (session history, answer generation, citations)
  * `app/utils/prepare_vectordb.py` (PDF extraction, chunking, vector store
     build/load with retry and backoff)
  * `app/main.py`                 (API initialisation, expired-session sweep)

External collaborators (the LLM chain, the embedding provider, the PDF
loader and the text splitter) are passed in as oracle parameters, exactly
at the call boundaries where the Python code invokes them.
-/

namespace RagChatBot

/-- A chat message: `HumanMessage` or `AIMessage` with text content
(`langchain_core.messages`). -/
inductive Msg
  | human (content : String)
  | ai (content : String)
deriving DecidableEq, Repr

/-- The module-level dict `session_history : Dict[str, List]` of
`chatbot.py`, modelled as an insertion-ordered association list
(Python dicts preserve insertion order; updates keep the slot, new keys
are appended at the end). -/
abbrev SessionStore := List (String × List Msg)

/-- Python dict lookup `d.get(k)` on an insertion-ordered association list. -/
def lookupKey {β : Type} : List (String × β) → String → Option β
  | [], _ => none
  | (k, v) :: rest, key => if k = key then some v else lookupKey rest key

/-- Python dict assignment `d[k] = v`: replace in place if the key exists,
otherwise append the new binding at the end. -/
def setKey {β : Type} : List (String × β) → String → β → List (String × β)
  | [], key, v => [(key, v)]
  | (k, w) :: rest, key, v =>
      if k = key then (k, v) :: rest else (k, w) :: setKey rest key v

/-- Python dict deletion `del d[k]`: remove the (unique, for a dict) binding
of the key. -/
def eraseKey {β : Type} : List (String × β) → String → List (String × β)
  | [], _ => []
  | (k, v) :: rest, key =>
      if k = key then rest else (k, v) :: eraseKey rest key

/-- `get_chat_history` (chatbot.py:178-190): `session_history.get(session_id, [])`. -/
def get_chat_history (store : SessionStore) (session_id : String) : List Msg :=
  (lookupKey store session_id).getD []

/-- `clear_chat_history` (chatbot.py:192-204): if the session id is tracked,
reset its history to the empty list; otherwise do nothing (a warning is
logged, no error is raised). -/
def clear_chat_history (store : SessionStore) (session_id : String) : SessionStore :=
  if (lookupKey store session_id).isSome then setKey store session_id [] else store

/-- A retrieved document chunk as consumed by the citation extraction:
`doc.metadata['source']` and `doc.metadata['page']`. -/
structure Chunk where
  source : String
  page : Nat
deriving DecidableEq, Repr

/-- One step of the citation loop (chatbot.py:167-169):
`sources[doc.metadata['source']].append(doc.metadata['page'])` on a
`defaultdict(list)`. First appearance creates the key at the end of the
(insertion-ordered) map; later appearances append the page to its list. -/
def addPage : List (String × List Nat) → String → Nat → List (String × List Nat)
  | [], src, p => [(src, [p])]
  | (k, ps) :: rest, src, p =>
      if k = src then (k, ps ++ [p]) :: rest else (k, ps) :: addPage rest src p

/-- The citation map built by `get_answer_with_history` (chatbot.py:166-169):
iterate over the retrieved chunks in retrieval order, grouping page numbers
by source file identifier. -/
def buildSources (context : List Chunk) : List (String × List Nat) :=
  context.foldl (fun m doc => addPage m doc.source doc.page) []

/-- The LLM-chain oracle: `get_response` / `chain.invoke` takes the question
and the chat history and either returns `(answer, context)` or raises. -/
abbrev LlmOracle := String → List Msg → Except String (String × List Chunk)

/-- `get_response` (chatbot.py:97-122): invoke the retrieval chain; an
exception propagates to the caller unchanged. -/
def get_response (question : String) (chat_history : List Msg) (llm : LlmOracle) :
    Except String (String × List Chunk) :=
  llm question chat_history

/-- `get_answer_with_history` (chatbot.py:124-176). Returns the pair of the
call result (`(response, sources, chat_history)` or the propagated
exception) and the session store after the call. -/
def get_answer_with_history (store : SessionStore) (session_id question : String)
    (llm : LlmOracle) :
    Except String (String × List (String × List Nat) × List Msg) × SessionStore :=
  -- lines 141-143: initialise the session history if it does not exist
  let store1 := if (lookupKey store session_id).isSome then store
                else setKey store session_id []
  -- line 148: chat_history = session_history[session_id]
  let chat_history := (lookupKey store1 session_id).getD []
  match get_response question chat_history llm with
  | Except.error e =>
      -- lines 174-176: the exception is logged and re-raised; the store is
      -- left as it was after the (content-preserving) initialisation
      (Except.error e, store1)
  | Except.ok (response, context) =>
      -- line 156: append the human turn then the assistant turn
      let ch2 := chat_history ++ [Msg.human question, Msg.ai response]
      -- lines 158-159: if len > 10, keep only the last 10 (slice [-10:])
      let ch3 := if ch2.length > 10 then ch2.drop (ch2.length - 10) else ch2
      -- line 163: save the updated history
      let store2 := setKey store1 session_id ch3
      -- lines 166-169: extract source metadata
      let sources := buildSources context
      (Except.ok (response, sources, ch3), store2)

/-- The chronological log of all message turns produced by a sequence of
question/answer pairs, before any trimming. -/
def fullLog : List (String × String) → List Msg
  | [] => []
  | (q, a) :: rest => Msg.human q :: Msg.ai a :: fullLog rest

/-- Run a sequence of successful question/answer exchanges through
`get_answer_with_history` on one session: for each pair `(q, a)` the LLM
oracle returns answer `a` (with an empty retrieval context). -/
def runTurns (session_id : String) : SessionStore → List (String × String) → SessionStore
  | store, [] => store
  | store, (q, a) :: rest =>
      runTurns session_id
        (get_answer_with_history store session_id q
          (fun _ _ => Except.ok (a, []))).2 rest

/-- The last `n` elements of a list (Python slice `l[-n:]` for `len(l) > n`,
and the whole list otherwise; with truncated subtraction the two cases
coincide). -/
def lastN (n : Nat) (l : List Msg) : List Msg := l.drop (l.length - n)

/-! ## prepare_vectordb.py -/

/-- `str.lower()` applied to an error message, as a character list
(Lean string primitives are kept out so everything evaluates in the
kernel). -/
def lowerChars (s : String) : List Char := s.data.map Char.toLower

/-- Whether the second list occurs at the head of the first. -/
def startsWithL : List Char → List Char → Bool
  | _, [] => true
  | [], _ :: _ => false
  | c :: cs, p :: ps => c == p && startsWithL cs ps

/-- Python substring test `pat in s` over character lists. -/
def hasSub : List Char → List Char → Bool
  | [], pat => startsWithL [] pat
  | s@(_ :: rest), pat => startsWithL s pat || hasSub rest pat

/-- Line 113: `"quota" in error_msg or "429" in error_msg`. -/
def isQuotaMsg (error_msg : List Char) : Bool :=
  hasSub error_msg "quota".data || hasSub error_msg "429".data

/-- Line 123: `"rate" in error_msg`. -/
def isRateMsg (error_msg : List Char) : Bool :=
  hasSub error_msg "rate".data

/-- A page document produced by `PyPDFLoader(...).load()`; the splitter
preserves its metadata, so for the embedded fragment a document carries the
same data as a chunk. -/
abbrev Doc := Chunk

/-- `extract_pdf_text` (prepare_vectordb.py:14-39): load each PDF in order,
extending the document list; a loader failure aborts the whole extraction
with the propagated error. The loader is the `PyPDFLoader` oracle. -/
def extract_pdf_text (loadPdf : String → Except String (List Doc)) :
    List String → Except String (List Doc)
  | [] => Except.ok []
  | pdf :: rest =>
      match loadPdf pdf with
      | Except.error e => Except.error e
      | Except.ok loaded_docs =>
          match extract_pdf_text loadPdf rest with
          | Except.error e => Except.error e
          | Except.ok docs => Except.ok (loaded_docs ++ docs)

/-- `get_text_chunks` (prepare_vectordb.py:41-56): `split_documents` splits
every document with the (library) splitter and concatenates the results in
order. The splitter is passed as an oracle. -/
def get_text_chunks (splitDoc : Doc → List Chunk) : List Doc → List Chunk
  | [] => []
  | d :: rest => splitDoc d ++ get_text_chunks splitDoc rest

/-- Outcome of one `Chroma.from_documents` embedding attempt, as observed by
the `try/except` of the retry loop. -/
inductive EmbedOutcome
  | ok
  | gerr (msg : String)  -- raises `GoogleGenerativeAIError` with this message
  | err (msg : String)   -- raises any other exception with this message
deriving DecidableEq, Repr

/-- Overall result of `get_vectorstore`. -/
inductive VdbResult
  | loaded                 -- line 84: persisted database loaded
  | built (attempt : Nat)  -- line 107: database built on this 0-based attempt
  | noneResult             -- line 150: falls through and returns None
  | raised (msg : String)  -- an exception propagates to the caller
deriving DecidableEq, Repr

/-- Line 121 message. -/
def quotaFinalMsg (max_retries : Nat) : String :=
  "API quota exceeded after " ++ toString max_retries ++
    " attempts. Please check your Google API billing and quota limits."

/-- Line 131 message. -/
def rateFinalMsg (max_retries : Nat) : String :=
  "Rate limit exceeded after " ++ toString max_retries ++
    " attempts. Please wait and try again later."

/-- Line 136 message. -/
def googleErrMsg (msg : String) : String := "Google API error: " ++ msg

/-- Line 147 message. -/
def genericFinalMsg (max_retries : Nat) (msg : String) : String :=
  "Failed to create embeddings after " ++ toString max_retries ++ " attempts: " ++ msg

/-- The retry loop of `get_vectorstore` (prepare_vectordb.py:97-147),
`for attempt in range(max_retries)`, written with a fuel argument equal to
the number of remaining iterations (`fuel = max_retries - attempt`; the
fuel-0 case is the loop running out of iterations, after which control
reaches line 150). Returns the result, the list of `time.sleep` waits in
order, and the number of embedding attempts performed. -/
def embedLoop (embed : Nat → EmbedOutcome) (max_retries retry_delay : Nat) :
    Nat → Nat → VdbResult × List Nat × Nat
  | _, 0 => (VdbResult.noneResult, [], 0)
  | attempt, fuel + 1 =>
    match embed attempt with
    | EmbedOutcome.ok => (VdbResult.built attempt, [], 1)
    | EmbedOutcome.gerr msg =>
        let error_msg := lowerChars msg
        if isQuotaMsg error_msg then
          if attempt < max_retries - 1 then
            -- line 115: exponential backoff
            let wait_time := retry_delay * 2 ^ attempt
            let r := embedLoop embed max_retries retry_delay (attempt + 1) fuel
            (r.1, wait_time :: r.2.1, r.2.2 + 1)
          else (VdbResult.raised (quotaFinalMsg max_retries), [], 1)
        else if isRateMsg error_msg then
          if attempt < max_retries - 1 then
            -- line 125: linear backoff
            let wait_time := retry_delay * (attempt + 1)
            let r := embedLoop embed max_retries retry_delay (attempt + 1) fuel
            (r.1, wait_time :: r.2.1, r.2.2 + 1)
          else (VdbResult.raised (rateFinalMsg max_retries), [], 1)
        else
          -- lines 133-136: any other Google API error is raised at once
          (VdbResult.raised (googleErrMsg msg), [], 1)
    | EmbedOutcome.err msg =>
        if attempt < max_retries - 1 then
          -- line 141: fixed backoff
          let r := embedLoop embed max_retries retry_delay (attempt + 1) fuel
          (r.1, retry_delay :: r.2.1, r.2.2 + 1)
        else (VdbResult.raised (genericFinalMsg max_retries msg), [], 1)

/-- Trace of one `get_vectorstore` call. -/
structure GvsRun where
  result : VdbResult
  waits : List Nat                       -- `time.sleep` durations, in order
  embedCalls : Nat                       -- `Chroma.from_documents` attempts
  chunksSubmitted : Option (List Chunk)  -- chunk list handed to the attempts
deriving DecidableEq, Repr

/-- `get_vectorstore` (prepare_vectordb.py:58-150). Environment oracles:
`persistExists` is `os.path.exists("Vector_DB - Documents")`, `loadFails`
says whether the `Chroma(persist_directory=...)` constructor raises,
`loadPdf` and `splitDoc` are the PDF loader and the text splitter, and
`embed` gives the outcome of each embedding attempt. -/
def get_vectorstore (persistExists loadFails : Bool)
    (loadPdf : String → Except String (List Doc)) (splitDoc : Doc → List Chunk)
    (embed : Nat → EmbedOutcome) (pdfs : List String)
    (from_session_state : Bool) (max_retries retry_delay : Nat) : GvsRun :=
  -- lines 78-88: try to load an existing persisted database; a failure is
  -- swallowed and control continues below
  if from_session_state && persistExists && !loadFails then
    { result := VdbResult.loaded, waits := [], embedCalls := 0,
      chunksSubmitted := none }
  -- line 90: `if not from_session_state or not os.path.exists(...)`
  else if !from_session_state || !persistExists then
    match extract_pdf_text loadPdf pdfs with
    | Except.error e =>
        { result := VdbResult.raised e, waits := [], embedCalls := 0,
          chunksSubmitted := none }
    | Except.ok docs =>
        let chunks := get_text_chunks splitDoc docs
        let r := embedLoop embed max_retries retry_delay 0 max_retries
        { result := r.1, waits := r.2.1, embedCalls := r.2.2,
          chunksSubmitted := some chunks }
  -- lines 149-150: no branch returned, the function returns None
  else
    { result := VdbResult.noneResult, waits := [], embedCalls := 0,
      chunksSubmitted := none }

/-! ## main.py -/

/-- main.py line 47 message. -/
def noDocsMsg : String :=
  "No documents found in the 'docs' folder. Please add documents before starting the API."

/-- `HealthAssistantAPI.__init__` (main.py:26-58), restricted to the logic
the claims are about: with an empty docs folder it raises before ever
calling `get_vectorstore`; otherwise it calls
`get_vectorstore(upload_docs)` with the default arguments
(`from_session_state=True, max_retries=3, retry_delay=5`). -/
def healthAssistantInit (persistExists loadFails : Bool)
    (loadPdf : String → Except String (List Doc)) (splitDoc : Doc → List Chunk)
    (embed : Nat → EmbedOutcome) (upload_docs : List String) :
    Except String GvsRun :=
  if upload_docs.isEmpty then Except.error noDocsMsg
  else Except.ok
    (get_vectorstore persistExists loadFails loadPdf splitDoc embed upload_docs true 3 5)

/-- `self.active_sessions`: session id to last-activity time (`time.time()`
values, modelled as integers). -/
abbrev ActiveMap := List (String × Int)

/-- `HealthAssistantAPI._cleanup_expired_sessions` (main.py:102-115; the
copy in app.py:353-366 is identical). The first Python loop both collects
the expired session ids and clears their chat history (the two effects
touch disjoint state, so they are written here as a filter followed by a
fold); the second loop deletes the expired ids from the activity map. -/
def cleanup_expired_sessions (store : SessionStore) (active_sessions : ActiveMap)
    (current_time session_timeout : Int) : SessionStore × ActiveMap :=
  let expired_sessions := (active_sessions.filter
      (fun p => decide (current_time - p.2 > session_timeout))).map Prod.fst
  let store1 := expired_sessions.foldl clear_chat_history store
  let active1 := expired_sessions.foldl eraseKey active_sessions
  (store1, active1)

/-! ## Association-list (Python dict) lemmas -/

lemma lookupKey_setKey_self {β : Type} (s : List (String × β)) (k : String) (v : β) :
    lookupKey (setKey s k v) k = some v := by
  induction s with
  | nil => simp [setKey, lookupKey]
  | cons p rest ih =>
      obtain ⟨a, w⟩ := p
      by_cases h : a = k
      · subst h; simp [setKey, lookupKey]
      · simp [setKey, lookupKey, h, ih]

lemma lookupKey_setKey_ne {β : Type} (s : List (String × β)) (k k' : String) (v : β)
    (h : k' ≠ k) : lookupKey (setKey s k v) k' = lookupKey s k' := by
  induction s with
  | nil => simp [setKey, lookupKey, Ne.symm h]
  | cons p rest ih =>
      obtain ⟨a, w⟩ := p
      by_cases ha : a = k
      · subst ha
        simp [setKey, lookupKey, Ne.symm h]
      · simp [setKey, lookupKey, ha, ih]

lemma setKey_setKey_self {β : Type} (s : List (String × β)) (k : String) (v w : β) :
    setKey (setKey s k v) k w = setKey s k w := by
  induction s with
  | nil => simp [setKey]
  | cons p rest ih =>
      obtain ⟨a, u⟩ := p
      by_cases h : a = k
      · subst h; simp [setKey]
      · simp [setKey, h, ih]

/-! ## C9: clear followed by get, idempotence, unknown id -/

lemma get_clear_self (store : SessionStore) (sid : String) :
    get_chat_history (clear_chat_history store sid) sid = [] := by
  by_cases h : (lookupKey store sid).isSome
  · simp [clear_chat_history, h, get_chat_history, lookupKey_setKey_self]
  · have h0 : lookupKey store sid = none := by
      cases hl : lookupKey store sid
      · rfl
      · rw [hl] at h; simp at h
    simp [clear_chat_history, h, get_chat_history, h0]

lemma get_clear_ne (store : SessionStore) (sid sid' : String) (h : sid' ≠ sid) :
    get_chat_history (clear_chat_history store sid) sid' = get_chat_history store sid' := by
  by_cases hs : (lookupKey store sid).isSome
  · simp [clear_chat_history, hs, get_chat_history, lookupKey_setKey_ne _ _ _ _ h]
  · simp [clear_chat_history, hs]

/-- C9: for every session id and every prior history content,
`clear_chat_history` followed by `get_chat_history` on that id returns the
empty sequence; `clear_chat_history` is idempotent; and it is a no-op
(raising no error) when the session id is not tracked. -/
theorem clear_chat_history_spec (store : SessionStore) (session_id : String) :
    get_chat_history (clear_chat_history store session_id) session_id = [] ∧
    clear_chat_history (clear_chat_history store session_id) session_id =
      clear_chat_history store session_id ∧
    (lookupKey store session_id = none → clear_chat_history store session_id = store) := by
  refine ⟨get_clear_self store session_id, ?_, ?_⟩
  · by_cases h : (lookupKey store session_id).isSome
    · simp [clear_chat_history, h, lookupKey_setKey_self, setKey_setKey_self]
    · simp [clear_chat_history, h]
  · intro h0
    simp [clear_chat_history, h0]

/-- Witness for C9 at a concrete store where the queried id is unknown. -/
theorem clear_chat_history_spec_witness :
    get_chat_history (clear_chat_history [("other", [Msg.human "q"])] "s1") "s1" = [] ∧
    clear_chat_history (clear_chat_history [("other", [Msg.human "q"])] "s1") "s1" =
      clear_chat_history [("other", [Msg.human "q"])] "s1" ∧
    (lookupKey [("other", [Msg.human "q"])] "s1" = none →
      clear_chat_history [("other", [Msg.human "q"])] "s1" = [("other", [Msg.human "q"])]) :=
  clear_chat_history_spec [("other", [Msg.human "q"])] "s1"

/-! ## C6: the citation map -/

/-- The pages of the chunks with a given source, in retrieval order
(duplicates preserved, not sorted). -/
def pagesOf (context : List Chunk) (src : String) : List Nat :=
  (context.filter (fun doc => decide (doc.source = src))).map Chunk.page

lemma lookupKey_addPage (m : List (String × List Nat)) (src k : String) (p : Nat) :
    lookupKey (addPage m src p) k =
      if k = src then some (((lookupKey m src).getD []) ++ [p]) else lookupKey m k := by
  induction m with
  | nil =>
      by_cases h : k = src
      · subst h; simp [addPage, lookupKey]
      · simp [addPage, lookupKey, h, Ne.symm h]
  | cons q rest ih =>
      obtain ⟨a, ps⟩ := q
      by_cases h1 : a = src
      · subst h1
        by_cases h2 : k = a
        · subst h2; simp [addPage, lookupKey]
        · simp [addPage, lookupKey, h2, Ne.symm h2]
      · by_cases h2 : k = a
        · subst h2
          simp [addPage, lookupKey, h1, ih]
        · simp [addPage, lookupKey, h1, h2, Ne.symm h2, ih]

lemma lookupKey_foldl_addPage (context : List Chunk) :
    ∀ (m : List (String × List Nat)) (src : String),
      lookupKey (context.foldl (fun acc doc => addPage acc doc.source doc.page) m) src =
        match lookupKey m src with
        | some qs => some (qs ++ pagesOf context src)
        | none =>
            if pagesOf context src = [] then none else some (pagesOf context src) := by
  induction context with
  | nil =>
      intro m src
      cases hm : lookupKey m src <;> simp [pagesOf, hm]
  | cons doc rest ih =>
      intro m src
      have hfold :
          ((doc :: rest).foldl (fun acc d => addPage acc d.source d.page) m) =
            rest.foldl (fun acc d => addPage acc d.source d.page)
              (addPage m doc.source doc.page) := rfl
      rw [hfold, ih]
      by_cases hsrc : src = doc.source
      · have hfilter : pagesOf (doc :: rest) src = doc.page :: pagesOf rest src := by
          simp [pagesOf, hsrc.symm]
        rw [lookupKey_addPage]
        simp only [if_pos hsrc, hfilter, ← hsrc]
        cases hm : lookupKey m src <;> simp
      · have hfilter : pagesOf (doc :: rest) src = pagesOf rest src := by
          simp [pagesOf, List.filter_cons, Ne.symm hsrc]
        rw [lookupKey_addPage]
        simp only [if_neg hsrc, hfilter]

/-- C6: the citation map groups retrieved chunks by source file identifier,
mapping each source to the list of its page numbers in retrieval order
(duplicates preserved, not sorted); in particular the chunks
`[(a.pdf, 1), (a.pdf, 3), (b.pdf, 2)]` yield
`[(a.pdf, [1, 3]), (b.pdf, [2])]`. -/
theorem buildSources_spec (context : List Chunk) (src : String) :
    lookupKey (buildSources context) src =
      (if pagesOf context src = [] then none else some (pagesOf context src)) ∧
    buildSources [⟨"a.pdf", 1⟩, ⟨"a.pdf", 3⟩, ⟨"b.pdf", 2⟩] =
      [("a.pdf", [1, 3]), ("b.pdf", [2])] := by
  constructor
  · have h := lookupKey_foldl_addPage context [] src
    simpa [buildSources, lookupKey] using h
  · decide

/-! ## C4: a failing LLM call propagates and commits nothing -/

/-- The history read inside `get_answer_with_history` after the
create-on-first-use initialisation equals the observable history. -/
lemma init_read_eq_get (store : SessionStore) (sid : String) :
    (lookupKey (if (lookupKey store sid).isSome then store else setKey store sid [])
        sid).getD [] = get_chat_history store sid := by
  by_cases h : (lookupKey store sid).isSome
  · simp [h, get_chat_history]
  · have h0 : lookupKey store sid = none := by
      cases hl : lookupKey store sid
      · rfl
      · rw [hl] at h; simp at h
    simp [h, h0, get_chat_history, lookupKey_setKey_self]

/-- C4: if the retrieval/LLM invocation inside `get_answer_with_history`
raises, the exception is propagated to the caller (there is no retry: the
oracle is invoked exactly once by the code) and every session's observable
history is unchanged — no partial question/answer turn is committed. -/
theorem gawh_error_propagates (store : SessionStore) (session_id question : String)
    (llm : LlmOracle) (e : String)
    (h : llm question (get_chat_history store session_id) = Except.error e) :
    (get_answer_with_history store session_id question llm).1 = Except.error e ∧
    ∀ sid', get_chat_history (get_answer_with_history store session_id question llm).2 sid'
      = get_chat_history store sid' := by
  by_cases hs : (lookupKey store session_id).isSome
  · have h' : llm question ((lookupKey store session_id).getD []) = Except.error e := h
    constructor
    · simp [get_answer_with_history, get_response, hs, h']
    · intro sid'
      simp [get_answer_with_history, get_response, hs, h']
  · have h0 : lookupKey store session_id = none := by
      cases hl : lookupKey store session_id
      · rfl
      · rw [hl] at hs; simp at hs
    have h' : llm question [] = Except.error e := by
      have hx := h
      rw [get_chat_history, h0] at hx
      simpa using hx
    constructor
    · simp [get_answer_with_history, get_response, hs, lookupKey_setKey_self, h']
    · intro sid'
      simp only [get_answer_with_history, get_response, hs, Bool.false_eq_true,
        if_false, lookupKey_setKey_self, Option.getD_some, h']
      by_cases hsid : sid' = session_id
      · subst hsid
        simp [get_chat_history, h0, lookupKey_setKey_self]
      · simp [get_chat_history, lookupKey_setKey_ne _ _ _ _ hsid]

/-- Witness for C4: a failing LLM call on a fresh session. -/
theorem gawh_error_propagates_witness :
    (get_answer_with_history [] "s1" "hello"
        (fun _ _ => Except.error "LLM failure")).1 = Except.error "LLM failure" ∧
    get_chat_history (get_answer_with_history [] "s1" "hello"
        (fun _ _ => Except.error "LLM failure")).2 "s1" = get_chat_history [] "s1" :=
  ⟨(gawh_error_propagates [] "s1" "hello" (fun _ _ => Except.error "LLM failure")
      "LLM failure" rfl).1,
   (gawh_error_propagates [] "s1" "hello" (fun _ _ => Except.error "LLM failure")
      "LLM failure" rfl).2 "s1"⟩

/-! ## C1: bounded history, most recent turns kept in order -/

lemma lastN_length_le (n : Nat) (l : List Msg) : (lastN n l).length ≤ n := by
  simp only [lastN, List.length_drop]
  omega

lemma lastN_of_le (n : Nat) (l : List Msg) (h : l.length ≤ n) : lastN n l = l := by
  simp [lastN, Nat.sub_eq_zero_of_le h]

lemma lastN_append_of_le (n : Nat) (l₁ l₂ : List Msg) (h : n ≤ l₂.length) :
    lastN n (l₁ ++ l₂) = lastN n l₂ := by
  unfold lastN
  have harith : (l₁ ++ l₂).length - n = l₁.length + (l₂.length - n) := by
    simp only [List.length_append]
    omega
  rw [harith, List.drop_append]

lemma lastN_lastN_append (n : Nat) (L M : List Msg) :
    lastN n (lastN n L ++ M) = lastN n (L ++ M) := by
  rcases Nat.le_total L.length n with h | h
  · rw [lastN_of_le n L h]
  · have key : lastN n ((L.take (L.length - n) ++ L.drop (L.length - n)) ++ M)
        = lastN n (L.drop (L.length - n) ++ M) := by
      rw [List.append_assoc]
      apply lastN_append_of_le
      simp only [List.length_append, List.length_drop]
      omega
    rw [List.take_append_drop] at key
    exact key.symm

/-- Lines 158-159 of chatbot.py: the trim step keeps exactly the last 10
messages. -/
lemma trim_eq_lastN (l : List Msg) :
    (if l.length > 10 then l.drop (l.length - 10) else l) = lastN 10 l := by
  by_cases h : l.length > 10
  · simp [h, lastN]
  · have h0 : l.length - 10 = 0 := by omega
    simp [h, lastN, h0]

/-- After one successful exchange, the session's stored history is the last
10 messages of the previous history extended by the new turn pair. -/
lemma gawh_ok_history (store : SessionStore) (sid q a : String) (ctx : List Chunk) :
    get_chat_history
        (get_answer_with_history store sid q (fun _ _ => Except.ok (a, ctx))).2 sid =
      lastN 10 (get_chat_history store sid ++ [Msg.human q, Msg.ai a]) := by
  have hrfl : (get_answer_with_history store sid q (fun _ _ => Except.ok (a, ctx))).2
      = setKey (if (lookupKey store sid).isSome then store else setKey store sid []) sid
          (if ((lookupKey (if (lookupKey store sid).isSome then store
                  else setKey store sid []) sid).getD []
                ++ [Msg.human q, Msg.ai a]).length > 10
           then ((lookupKey (if (lookupKey store sid).isSome then store
                  else setKey store sid []) sid).getD []
                ++ [Msg.human q, Msg.ai a]).drop
                  (((lookupKey (if (lookupKey store sid).isSome then store
                    else setKey store sid []) sid).getD []
                    ++ [Msg.human q, Msg.ai a]).length - 10)
           else (lookupKey (if (lookupKey store sid).isSome then store
                  else setKey store sid []) sid).getD []
                ++ [Msg.human q, Msg.ai a]) := rfl
  rw [hrfl, trim_eq_lastN, get_chat_history, lookupKey_setKey_self]
  simp only [Option.getD_some]
  rw [init_read_eq_get store sid]

lemma runTurns_history (sid : String) (ops : List (String × String)) :
    ∀ (store : SessionStore) (L : List Msg),
      get_chat_history store sid = lastN 10 L →
      get_chat_history (runTurns sid store ops) sid = lastN 10 (L ++ fullLog ops) := by
  induction ops with
  | nil =>
      intro store L h
      simpa [runTurns, fullLog] using h
  | cons p rest ih =>
      obtain ⟨q, a⟩ := p
      intro store L h
      have hstep := gawh_ok_history store sid q a []
      rw [h, lastN_lastN_append] at hstep
      have hrest := ih _ _ hstep
      rw [List.append_assoc] at hrest
      simpa [runTurns, fullLog] using hrest

/-- C1: for every session id and every sequence of successful exchanges
(each appending one human turn then one assistant turn via
`get_answer_with_history`), the stored history never exceeds 10 messages,
and it always equals the most recent messages of the full chronological
log — so when trimming occurs exactly the most recent 10 are kept in their
original order, oldest dropped first. -/
theorem history_bounded_most_recent (session_id : String) (ops : List (String × String)) :
    (get_chat_history (runTurns session_id [] ops) session_id).length ≤ 10 ∧
    get_chat_history (runTurns session_id [] ops) session_id = lastN 10 (fullLog ops) := by
  have h0 : get_chat_history ([] : SessionStore) session_id = lastN 10 [] := by
    simp [get_chat_history, lookupKey, lastN]
  have h := runTurns_history session_id ops [] [] h0
  rw [List.nil_append] at h
  exact ⟨h ▸ lastN_length_le 10 (fullLog ops), h⟩

/-! ## C7: the expired-session sweep -/

lemma get_foldl_clear (l : List String) :
    ∀ (store : SessionStore) (sid : String),
      get_chat_history (l.foldl clear_chat_history store) sid =
        if sid ∈ l then [] else get_chat_history store sid := by
  induction l with
  | nil => intro store sid; simp
  | cons x rest ih =>
      intro store sid
      have hfold : (x :: rest).foldl clear_chat_history store =
          rest.foldl clear_chat_history (clear_chat_history store x) := rfl
      rw [hfold, ih]
      by_cases hmem : sid ∈ rest
      · simp [hmem]
      · by_cases hx : sid = x
        · subst hx
          simp [hmem, get_clear_self]
        · simp [hmem, hx, get_clear_ne store x sid hx]

lemma eraseKey_sublist {β : Type} (a : List (String × β)) (k : String) :
    (eraseKey a k).Sublist a := by
  induction a with
  | nil => simp [eraseKey]
  | cons p rest ih =>
      obtain ⟨x, v⟩ := p
      by_cases h : x = k
      · simp [eraseKey, h]
      · simpa [eraseKey, h] using ih.cons₂ (x, v)

lemma mem_eraseKey {β : Type} (a : List (String × β)) (k : String)
    (hnd : (a.map Prod.fst).Nodup) (sid : String) (t : β) :
    (sid, t) ∈ eraseKey a k ↔ (sid, t) ∈ a ∧ sid ≠ k := by
  induction a with
  | nil => simp [eraseKey]
  | cons p rest ih =>
      obtain ⟨x, v⟩ := p
      simp only [List.map_cons, List.nodup_cons] at hnd
      obtain ⟨hx, hnd'⟩ := hnd
      by_cases h : x = k
      · subst h
        simp only [eraseKey, if_pos rfl]
        constructor
        · intro hm
          have hne : sid ≠ x := by
            intro he
            subst he
            exact hx (List.mem_map.mpr ⟨(sid, t), hm, rfl⟩)
          exact ⟨List.mem_cons_of_mem _ hm, hne⟩
        · rintro ⟨hm, hne⟩
          rcases List.mem_cons.mp hm with he | hm'
          · exact absurd (congrArg Prod.fst he) hne
          · exact hm'
      · simp only [eraseKey, if_neg h]
        constructor
        · intro hm
          rcases List.mem_cons.mp hm with he | hm'
          · have hsx : sid = x := congrArg Prod.fst he
            refine ⟨List.mem_cons.mpr (Or.inl he), ?_⟩
            intro hk
            exact h (hsx ▸ hk)
          · obtain ⟨hin, hne⟩ := (ih hnd').mp hm'
            exact ⟨List.mem_cons_of_mem _ hin, hne⟩
        · rintro ⟨hm, hne⟩
          rcases List.mem_cons.mp hm with he | hm'
          · exact he ▸ List.mem_cons_self _ _
          · exact List.mem_cons_of_mem _ ((ih hnd').mpr ⟨hm', hne⟩)

lemma mem_foldl_eraseKey {β : Type} (l : List String) :
    ∀ (a : List (String × β)), (a.map Prod.fst).Nodup → ∀ (sid : String) (t : β),
      ((sid, t) ∈ l.foldl eraseKey a ↔ (sid, t) ∈ a ∧ sid ∉ l) := by
  induction l with
  | nil => intro a _ sid t; simp
  | cons k rest ih =>
      intro a hnd sid t
      have hfold : (k :: rest).foldl eraseKey a = rest.foldl eraseKey (eraseKey a k) := rfl
      have hnd' : ((eraseKey a k).map Prod.fst).Nodup :=
        ((eraseKey_sublist a k).map Prod.fst).nodup hnd
      rw [hfold, ih (eraseKey a k) hnd' sid t, mem_eraseKey a k hnd sid t]
      constructor
      · rintro ⟨⟨hin, hne⟩, hnr⟩
        exact ⟨hin, by simp [hne, hnr]⟩
      · rintro ⟨hin, hnl⟩
        simp only [List.mem_cons, not_or] at hnl
        exact ⟨⟨hin, hnl.1⟩, hnl.2⟩

lemma nodup_key_unique {β : Type} (a : List (String × β))
    (hnd : (a.map Prod.fst).Nodup) (sid : String) (t t' : β)
    (h1 : (sid, t) ∈ a) (h2 : (sid, t') ∈ a) : t = t' := by
  induction a with
  | nil => simp at h1
  | cons p rest ih =>
      obtain ⟨x, v⟩ := p
      simp only [List.map_cons, List.nodup_cons] at hnd
      obtain ⟨hx, hnd'⟩ := hnd
      rcases List.mem_cons.mp h1 with he1 | hm1 <;> rcases List.mem_cons.mp h2 with he2 | hm2
      · have e1 := congrArg Prod.snd he1
        have e2 := congrArg Prod.snd he2
        simp at e1 e2
        rw [e1, e2]
      · have hs : sid = x := congrArg Prod.fst he1
        subst hs
        exact absurd (List.mem_map.mpr ⟨(sid, t'), hm2, rfl⟩) hx
      · have hs : sid = x := congrArg Prod.fst he2
        subst hs
        exact absurd (List.mem_map.mpr ⟨(sid, t), hm1, rfl⟩) hx
      · exact ih hnd' hm1 hm2

/-- Membership in the expired-id list of the sweep. -/
lemma mem_expired_iff (active : ActiveMap) (now timeout : Int) (sid : String) :
    (sid ∈ (active.filter (fun p => decide (now - p.2 > timeout))).map Prod.fst) ↔
      ∃ t, (sid, t) ∈ active ∧ now - t > timeout := by
  constructor
  · intro h
    obtain ⟨⟨s, t⟩, hmem, hfst⟩ := List.mem_map.mp h
    obtain ⟨hin, hcond⟩ := List.mem_filter.mp hmem
    cases hfst
    exact ⟨t, hin, of_decide_eq_true hcond⟩
  · rintro ⟨t, hin, hcond⟩
    exact List.mem_map.mpr ⟨(sid, t),
      List.mem_filter.mpr ⟨hin, decide_eq_true hcond⟩, rfl⟩

/-- C7: the sweep removes exactly the sessions whose inactivity strictly
exceeds the timeout — it clears their history and deletes them from the
activity map — and every other session keeps its exact history contents and
activity timestamp. -/
theorem cleanup_expired_sessions_spec (store : SessionStore) (active : ActiveMap)
    (now timeout : Int) (hnd : (active.map Prod.fst).Nodup) :
    (∀ sid t, (sid, t) ∈ (cleanup_expired_sessions store active now timeout).2 ↔
        ((sid, t) ∈ active ∧ now - t ≤ timeout)) ∧
    (∀ sid t, (sid, t) ∈ active → now - t > timeout →
        get_chat_history (cleanup_expired_sessions store active now timeout).1 sid = []) ∧
    (∀ sid, (∀ t, (sid, t) ∈ active → now - t ≤ timeout) →
        get_chat_history (cleanup_expired_sessions store active now timeout).1 sid =
          get_chat_history store sid) := by
  refine ⟨?_, ?_, ?_⟩
  · intro sid t
    have h := mem_foldl_eraseKey
      ((active.filter (fun p => decide (now - p.2 > timeout))).map Prod.fst)
      active hnd sid t
    rw [show (cleanup_expired_sessions store active now timeout).2 =
        ((active.filter (fun p => decide (now - p.2 > timeout))).map Prod.fst).foldl
          eraseKey active from rfl, h, mem_expired_iff]
    constructor
    · rintro ⟨hin, hnex⟩
      refine ⟨hin, ?_⟩
      by_contra hgt
      exact hnex ⟨t, hin, lt_of_not_le hgt⟩
    · rintro ⟨hin, hle⟩
      refine ⟨hin, ?_⟩
      rintro ⟨t', hin', hgt'⟩
      have : t = t' := nodup_key_unique active hnd sid t t' hin hin'
      subst this
      exact absurd hgt' (not_lt_of_le hle)
  · intro sid t hin hgt
    rw [show (cleanup_expired_sessions store active now timeout).1 =
        ((active.filter (fun p => decide (now - p.2 > timeout))).map Prod.fst).foldl
          clear_chat_history store from rfl,
      get_foldl_clear]
    rw [if_pos ((mem_expired_iff active now timeout sid).mpr ⟨t, hin, hgt⟩)]
  · intro sid hall
    rw [show (cleanup_expired_sessions store active now timeout).1 =
        ((active.filter (fun p => decide (now - p.2 > timeout))).map Prod.fst).foldl
          clear_chat_history store from rfl,
      get_foldl_clear]
    rw [if_neg]
    intro hmem
    obtain ⟨t, hin, hgt⟩ := (mem_expired_iff active now timeout sid).mp hmem
    exact absurd hgt (not_lt_of_le (hall t hin))

/-- Witness for C7: session a (idle 2000s) is expired and cleared, session
b (idle 1700s) keeps its history and timestamp, with timeout 1800s. -/
theorem cleanup_expired_sessions_witness :
    (("b", (300 : Int)) ∈
        (cleanup_expired_sessions
          [("a", [Msg.human "q", Msg.ai "r"]), ("b", [Msg.human "x"])]
          [("a", 0), ("b", 300)] 2000 1800).2) ∧
    get_chat_history
        (cleanup_expired_sessions
          [("a", [Msg.human "q", Msg.ai "r"]), ("b", [Msg.human "x"])]
          [("a", 0), ("b", 300)] 2000 1800).1 "a" = [] ∧
    get_chat_history
        (cleanup_expired_sessions
          [("a", [Msg.human "q", Msg.ai "r"]), ("b", [Msg.human "x"])]
          [("a", 0), ("b", 300)] 2000 1800).1 "b" =
      get_chat_history
        [("a", [Msg.human "q", Msg.ai "r"]), ("b", [Msg.human "x"])] "b" := by
  have h := cleanup_expired_sessions_spec
    [("a", [Msg.human "q", Msg.ai "r"]), ("b", [Msg.human "x"])]
    [("a", 0), ("b", 300)] 2000 1800 (by decide)
  refine ⟨(h.1 "b" 300).mpr ⟨by decide, by decide⟩,
    h.2.1 "a" 0 (by decide) (by decide),
    h.2.2 "b" ?_⟩
  intro t ht
  rcases List.mem_cons.mp ht with he | ht'
  · have hba : ("b" : String) = "a" := congrArg Prod.fst he
    exact absurd hba (by decide)
  · rcases List.mem_cons.mp ht' with he | ht''
    · have : t = 300 := congrArg Prod.snd he
      subst this
      decide
    · simp at ht''

/-! ## The retry loop: single-step unfoldings -/

lemma embedLoop_quota_step (embed : Nat → EmbedOutcome) (mr rd attempt f : Nat)
    (msg : String) (hemb : embed attempt = EmbedOutcome.gerr msg)
    (hcl : isQuotaMsg (lowerChars msg) = true) (hlt : attempt < mr - 1) :
    embedLoop embed mr rd attempt (f + 1) =
      ((embedLoop embed mr rd (attempt + 1) f).1,
       rd * 2 ^ attempt :: (embedLoop embed mr rd (attempt + 1) f).2.1,
       (embedLoop embed mr rd (attempt + 1) f).2.2 + 1) := by
  rw [embedLoop, hemb]
  simp [hcl, hlt]

lemma embedLoop_quota_last (embed : Nat → EmbedOutcome) (mr rd attempt f : Nat)
    (msg : String) (hemb : embed attempt = EmbedOutcome.gerr msg)
    (hcl : isQuotaMsg (lowerChars msg) = true) (hge : ¬ attempt < mr - 1) :
    embedLoop embed mr rd attempt (f + 1) =
      (VdbResult.raised (quotaFinalMsg mr), [], 1) := by
  rw [embedLoop, hemb]
  simp [hcl, hge]

lemma embedLoop_generic_step (embed : Nat → EmbedOutcome) (mr rd attempt f : Nat)
    (msg : String) (hemb : embed attempt = EmbedOutcome.err msg)
    (hlt : attempt < mr - 1) :
    embedLoop embed mr rd attempt (f + 1) =
      ((embedLoop embed mr rd (attempt + 1) f).1,
       rd :: (embedLoop embed mr rd (attempt + 1) f).2.1,
       (embedLoop embed mr rd (attempt + 1) f).2.2 + 1) := by
  rw [embedLoop, hemb]
  simp [hlt]

lemma embedLoop_generic_last (embed : Nat → EmbedOutcome) (mr rd attempt f : Nat)
    (msg : String) (hemb : embed attempt = EmbedOutcome.err msg)
    (hge : ¬ attempt < mr - 1) :
    embedLoop embed mr rd attempt (f + 1) =
      (VdbResult.raised (genericFinalMsg mr msg), [], 1) := by
  rw [embedLoop, hemb]
  simp [hge]

lemma embedLoop_google_other (embed : Nat → EmbedOutcome) (mr rd attempt f : Nat)
    (msg : String) (hemb : embed attempt = EmbedOutcome.gerr msg)
    (hq : isQuotaMsg (lowerChars msg) = false)
    (hr : isRateMsg (lowerChars msg) = false) :
    embedLoop embed mr rd attempt (f + 1) =
      (VdbResult.raised (googleErrMsg msg), [], 1) := by
  rw [embedLoop, hemb]
  simp [hq, hr]

/-- Every attempt failing with a quota-classified Google error gives the
exponential wait schedule and ends in the quota error after exhausting the
remaining attempts. -/
lemma embedLoop_all_quota (embed : Nat → EmbedOutcome) (max_retries retry_delay : Nat)
    (hq : ∀ i, ∃ msg, embed i = EmbedOutcome.gerr msg ∧
        isQuotaMsg (lowerChars msg) = true) :
    ∀ (fuel attempt : Nat), attempt + fuel = max_retries → 0 < fuel →
      embedLoop embed max_retries retry_delay attempt fuel =
        (VdbResult.raised (quotaFinalMsg max_retries),
         (List.range (fuel - 1)).map (fun i => retry_delay * 2 ^ (attempt + i)),
         fuel) := by
  intro fuel
  induction fuel with
  | zero => intro attempt _ h0; exact absurd h0 (by omega)
  | succ f ihf =>
      intro attempt hsum _
      obtain ⟨msg, hemb, hcl⟩ := hq attempt
      by_cases hlt : attempt < max_retries - 1
      · have hf : 0 < f := by omega
        have hrec := ihf (attempt + 1) (by omega) hf
        rw [embedLoop_quota_step embed max_retries retry_delay attempt f msg hemb hcl hlt,
          hrec]
        obtain ⟨g, rfl⟩ : ∃ g, f = g + 1 := ⟨f - 1, by omega⟩
        have hlist : (List.range (g + 1 + 1 - 1)).map
              (fun i => retry_delay * 2 ^ (attempt + i)) =
            retry_delay * 2 ^ attempt ::
              (List.range (g + 1 - 1)).map (fun i => retry_delay * 2 ^ (attempt + 1 + i)) := by
          simp only [Nat.add_sub_cancel, List.range_succ_eq_map, List.map_cons,
            List.map_map, Nat.add_zero]
          refine congrArg _ ?_
          apply List.map_congr_left
          intro i _
          simp only [Function.comp, Nat.succ_eq_add_one]
          have he : attempt + (i + 1) = attempt + 1 + i := by omega
          rw [he]
        rw [hlist]
      · have hf0 : f = 0 := by omega
        subst hf0
        rw [embedLoop_quota_last embed max_retries retry_delay attempt 0 msg hemb hcl hlt]
        simp

/-- Every attempt failing with a non-Google exception gives the fixed wait
schedule and ends in the generic error after exhausting the remaining
attempts. -/
lemma embedLoop_all_generic (embed : Nat → EmbedOutcome) (max_retries retry_delay : Nat)
    (msgs : Nat → String) (hg : ∀ i, embed i = EmbedOutcome.err (msgs i)) :
    ∀ (fuel attempt : Nat), attempt + fuel = max_retries → 0 < fuel →
      embedLoop embed max_retries retry_delay attempt fuel =
        (VdbResult.raised (genericFinalMsg max_retries (msgs (max_retries - 1))),
         List.replicate (fuel - 1) retry_delay,
         fuel) := by
  intro fuel
  induction fuel with
  | zero => intro attempt _ h0; exact absurd h0 (by omega)
  | succ f ihf =>
      intro attempt hsum _
      by_cases hlt : attempt < max_retries - 1
      · have hf : 0 < f := by omega
        have hrec := ihf (attempt + 1) (by omega) hf
        rw [embedLoop_generic_step embed max_retries retry_delay attempt f (msgs attempt)
          (hg attempt) hlt, hrec]
        obtain ⟨g, rfl⟩ : ∃ g, f = g + 1 := ⟨f - 1, by omega⟩
        simp [List.replicate_succ]
      · have hf0 : f = 0 := by omega
        subst hf0
        have hlast : attempt = max_retries - 1 := by omega
        rw [embedLoop_generic_last embed max_retries retry_delay attempt 0 (msgs attempt)
          (hg attempt) hlt]
        rw [hlast]
        simp

/-- With no persisted index the build path runs: extraction, chunking, and
the retry loop starting at attempt 0 with fuel `max_retries`. -/
lemma get_vectorstore_build (loadFails : Bool)
    (loadPdf : String → Except String (List Doc)) (splitDoc : Doc → List Chunk)
    (embed : Nat → EmbedOutcome) (pdfs : List String) (docs : List Doc)
    (from_session_state : Bool) (max_retries retry_delay : Nat)
    (hdocs : extract_pdf_text loadPdf pdfs = Except.ok docs) :
    get_vectorstore false loadFails loadPdf splitDoc embed pdfs from_session_state
        max_retries retry_delay =
      { result := (embedLoop embed max_retries retry_delay 0 max_retries).1,
        waits := (embedLoop embed max_retries retry_delay 0 max_retries).2.1,
        embedCalls := (embedLoop embed max_retries retry_delay 0 max_retries).2.2,
        chunksSubmitted := some (get_text_chunks splitDoc docs) } := by
  simp [get_vectorstore, hdocs]

/-! ## C3: exponential quota backoff and final quota error -/

/-- C3: when every embedding attempt fails with an error classified as
quota (lowercased message contains "quota" or "429"), the wait before
retry number `attempt + 1` is `retry_delay * 2 ^ attempt`, and after
`max_retries` failed attempts the function raises the quota error whose
message carries the attempt count, having performed exactly `max_retries`
attempts (so with the defaults `retry_delay = 5`, `max_retries = 3`, the
waits are 5, 10 and the run fails after 3 attempts). -/
theorem quota_retry_schedule (loadFails : Bool)
    (loadPdf : String → Except String (List Doc)) (splitDoc : Doc → List Chunk)
    (embed : Nat → EmbedOutcome) (pdfs : List String) (docs : List Doc)
    (from_session_state : Bool) (max_retries retry_delay : Nat)
    (hdocs : extract_pdf_text loadPdf pdfs = Except.ok docs)
    (hmr : 0 < max_retries)
    (hq : ∀ i, ∃ msg, embed i = EmbedOutcome.gerr msg ∧
        isQuotaMsg (lowerChars msg) = true) :
    (get_vectorstore false loadFails loadPdf splitDoc embed pdfs from_session_state
        max_retries retry_delay).result = VdbResult.raised (quotaFinalMsg max_retries) ∧
    (get_vectorstore false loadFails loadPdf splitDoc embed pdfs from_session_state
        max_retries retry_delay).waits =
      (List.range (max_retries - 1)).map (fun attempt => retry_delay * 2 ^ attempt) ∧
    (get_vectorstore false loadFails loadPdf splitDoc embed pdfs from_session_state
        max_retries retry_delay).embedCalls = max_retries := by
  have hloop := embedLoop_all_quota embed max_retries retry_delay hq max_retries 0
    (by omega) hmr
  rw [get_vectorstore_build loadFails loadPdf splitDoc embed pdfs docs
    from_session_state max_retries retry_delay hdocs]
  simp [hloop]

/-- Witness for C3 with the default parameters `max_retries = 3`,
`retry_delay = 5`: waits 5, 10, failure after exactly 3 attempts. -/
theorem quota_retry_schedule_witness :
    (get_vectorstore false false (fun _ => Except.ok []) (fun _ => [])
        (fun _ => EmbedOutcome.gerr "Resource exhausted: check quota (HTTP 429)")
        ["doc.pdf"] true 3 5).result =
      VdbResult.raised
        "API quota exceeded after 3 attempts. Please check your Google API billing and quota limits." ∧
    (get_vectorstore false false (fun _ => Except.ok []) (fun _ => [])
        (fun _ => EmbedOutcome.gerr "Resource exhausted: check quota (HTTP 429)")
        ["doc.pdf"] true 3 5).waits = [5, 10] ∧
    (get_vectorstore false false (fun _ => Except.ok []) (fun _ => [])
        (fun _ => EmbedOutcome.gerr "Resource exhausted: check quota (HTTP 429)")
        ["doc.pdf"] true 3 5).embedCalls = 3 := by
  have h := quota_retry_schedule false (fun _ => Except.ok []) (fun _ => [])
    (fun _ => EmbedOutcome.gerr "Resource exhausted: check quota (HTTP 429)")
    ["doc.pdf"] [] true 3 5 rfl (by decide)
    (fun _ => ⟨"Resource exhausted: check quota (HTTP 429)", rfl, by decide⟩)
  exact ⟨h.1.trans (by decide), h.2.1.trans (by decide), h.2.2⟩

/-! ## C10: a message matching both quota and rate is classified as quota -/

/-- C10: when every attempt fails with a Google error whose lowercased
message contains both a quota indicator ("quota" or "429") and "rate", the
run is classified as quota exhaustion: the waits follow the exponential
schedule `retry_delay * 2 ^ attempt` (never the linear rate schedule) and
the final error is the quota error, because the quota/429 check is
evaluated before the rate check. -/
theorem quota_check_beats_rate_check (loadFails : Bool)
    (loadPdf : String → Except String (List Doc)) (splitDoc : Doc → List Chunk)
    (embed : Nat → EmbedOutcome) (pdfs : List String) (docs : List Doc)
    (from_session_state : Bool) (max_retries retry_delay : Nat)
    (hdocs : extract_pdf_text loadPdf pdfs = Except.ok docs)
    (hmr : 0 < max_retries)
    (hq : ∀ i, ∃ msg, embed i = EmbedOutcome.gerr msg ∧
        isQuotaMsg (lowerChars msg) = true ∧ isRateMsg (lowerChars msg) = true) :
    (get_vectorstore false loadFails loadPdf splitDoc embed pdfs from_session_state
        max_retries retry_delay).result = VdbResult.raised (quotaFinalMsg max_retries) ∧
    (get_vectorstore false loadFails loadPdf splitDoc embed pdfs from_session_state
        max_retries retry_delay).waits =
      (List.range (max_retries - 1)).map (fun attempt => retry_delay * 2 ^ attempt) := by
  have hq' : ∀ i, ∃ msg, embed i = EmbedOutcome.gerr msg ∧
      isQuotaMsg (lowerChars msg) = true := by
    intro i
    obtain ⟨msg, he, hcq, _⟩ := hq i
    exact ⟨msg, he, hcq⟩
  have hloop := embedLoop_all_quota embed max_retries retry_delay hq' max_retries 0
    (by omega) hmr
  rw [get_vectorstore_build loadFails loadPdf splitDoc embed pdfs docs
    from_session_state max_retries retry_delay hdocs]
  simp [hloop]

/-- Witness for C10: the message mentions both the rate and the quota, yet
the exponential quota schedule applies. -/
theorem quota_check_beats_rate_check_witness :
    (get_vectorstore false false (fun _ => Except.ok []) (fun _ => [])
        (fun _ => EmbedOutcome.gerr "Rate limited: 429 quota exhausted")
        ["doc.pdf"] true 3 5).result =
      VdbResult.raised
        "API quota exceeded after 3 attempts. Please check your Google API billing and quota limits." ∧
    (get_vectorstore false false (fun _ => Except.ok []) (fun _ => [])
        (fun _ => EmbedOutcome.gerr "Rate limited: 429 quota exhausted")
        ["doc.pdf"] true 3 5).waits = [5, 10] := by
  have h := quota_check_beats_rate_check false (fun _ => Except.ok []) (fun _ => [])
    (fun _ => EmbedOutcome.gerr "Rate limited: 429 quota exhausted")
    ["doc.pdf"] [] true 3 5 rfl (by decide)
    (fun _ => ⟨"Rate limited: 429 quota exhausted", rfl, by decide, by decide⟩)
  exact ⟨h.1.trans (by decide), h.2.trans (by decide)⟩

/-! ## C8: backoff for failures that are neither quota nor rate -/

/-- Counterexample to C8 as stated: a `GoogleGenerativeAIError` whose
message contains neither "quota"/"429" nor "rate" is NOT retried with a
fixed backoff — it is raised immediately on the first attempt, with no
waits, although `max_retries = 3`. -/
theorem unclassified_google_error_not_retried :
    (get_vectorstore false false (fun _ => Except.ok []) (fun _ => [])
        (fun _ => EmbedOutcome.gerr "internal server error")
        ["doc.pdf"] true 3 5).result =
      VdbResult.raised "Google API error: internal server error" ∧
    (get_vectorstore false false (fun _ => Except.ok []) (fun _ => [])
        (fun _ => EmbedOutcome.gerr "internal server error")
        ["doc.pdf"] true 3 5).waits = [] ∧
    (get_vectorstore false false (fun _ => Except.ok []) (fun _ => [])
        (fun _ => EmbedOutcome.gerr "internal server error")
        ["doc.pdf"] true 3 5).embedCalls = 1 ∧
    ¬ (get_vectorstore false false (fun _ => Except.ok []) (fun _ => [])
        (fun _ => EmbedOutcome.gerr "internal server error")
        ["doc.pdf"] true 3 5).embedCalls = 3 := by
  decide

/-- C8 (amended): only failures that are not `GoogleGenerativeAIError`
instances (the general `except Exception` handler) are retried with the
fixed backoff `retry_delay` between attempts, up to `max_retries` attempts,
before the generic classified failure carrying the attempt count is raised;
a `GoogleGenerativeAIError` matching neither quota/429 nor rate is raised
immediately as a "Google API error" with no retry and no waits. -/
theorem generic_failure_fixed_backoff (loadFails : Bool)
    (loadPdf : String → Except String (List Doc)) (splitDoc : Doc → List Chunk)
    (embed : Nat → EmbedOutcome) (pdfs : List String) (docs : List Doc)
    (from_session_state : Bool) (max_retries retry_delay : Nat)
    (msgs : Nat → String) (gmsg : String)
    (hdocs : extract_pdf_text loadPdf pdfs = Except.ok docs)
    (hmr : 0 < max_retries) :
    ((∀ i, embed i = EmbedOutcome.err (msgs i)) →
      (get_vectorstore false loadFails loadPdf splitDoc embed pdfs from_session_state
          max_retries retry_delay).result =
        VdbResult.raised (genericFinalMsg max_retries (msgs (max_retries - 1))) ∧
      (get_vectorstore false loadFails loadPdf splitDoc embed pdfs from_session_state
          max_retries retry_delay).waits =
        List.replicate (max_retries - 1) retry_delay ∧
      (get_vectorstore false loadFails loadPdf splitDoc embed pdfs from_session_state
          max_retries retry_delay).embedCalls = max_retries) ∧
    ((embed 0 = EmbedOutcome.gerr gmsg ∧ isQuotaMsg (lowerChars gmsg) = false ∧
        isRateMsg (lowerChars gmsg) = false) →
      (get_vectorstore false loadFails loadPdf splitDoc embed pdfs from_session_state
          max_retries retry_delay).result = VdbResult.raised (googleErrMsg gmsg) ∧
      (get_vectorstore false loadFails loadPdf splitDoc embed pdfs from_session_state
          max_retries retry_delay).waits = [] ∧
      (get_vectorstore false loadFails loadPdf splitDoc embed pdfs from_session_state
          max_retries retry_delay).embedCalls = 1) := by
  rw [get_vectorstore_build loadFails loadPdf splitDoc embed pdfs docs
    from_session_state max_retries retry_delay hdocs]
  constructor
  · intro hg
    have hloop := embedLoop_all_generic embed max_retries retry_delay msgs hg
      max_retries 0 (by omega) hmr
    simp [hloop]
  · rintro ⟨hemb, hcq, hcr⟩
    obtain ⟨m, rfl⟩ : ∃ m, max_retries = m + 1 := ⟨max_retries - 1, by omega⟩
    have hloop := embedLoop_google_other embed (m + 1) retry_delay 0 m gmsg hemb hcq hcr
    simp [hloop]

/-- Witness for C8 (amended): both branches at concrete inputs with
`max_retries = 3`, `retry_delay = 5`. -/
theorem generic_failure_fixed_backoff_witness :
    ((get_vectorstore false false (fun _ => Except.ok []) (fun _ => [])
        (fun _ => EmbedOutcome.err "socket timeout")
        ["doc.pdf"] true 3 5).result =
      VdbResult.raised "Failed to create embeddings after 3 attempts: socket timeout" ∧
     (get_vectorstore false false (fun _ => Except.ok []) (fun _ => [])
        (fun _ => EmbedOutcome.err "socket timeout")
        ["doc.pdf"] true 3 5).waits = [5, 5] ∧
     (get_vectorstore false false (fun _ => Except.ok []) (fun _ => [])
        (fun _ => EmbedOutcome.err "socket timeout")
        ["doc.pdf"] true 3 5).embedCalls = 3) ∧
    ((get_vectorstore false false (fun _ => Except.ok []) (fun _ => [])
        (fun _ => EmbedOutcome.gerr "internal failure")
        ["doc.pdf"] true 3 5).result =
      VdbResult.raised "Google API error: internal failure" ∧
     (get_vectorstore false false (fun _ => Except.ok []) (fun _ => [])
        (fun _ => EmbedOutcome.gerr "internal failure")
        ["doc.pdf"] true 3 5).waits = [] ∧
     (get_vectorstore false false (fun _ => Except.ok []) (fun _ => [])
        (fun _ => EmbedOutcome.gerr "internal failure")
        ["doc.pdf"] true 3 5).embedCalls = 1) := by
  have ha := (generic_failure_fixed_backoff false (fun _ => Except.ok []) (fun _ => [])
    (fun _ => EmbedOutcome.err "socket timeout") ["doc.pdf"] [] true 3 5
    (fun _ => "socket timeout") "unused" rfl (by decide)).1 (fun _ => rfl)
  have hb := (generic_failure_fixed_backoff false (fun _ => Except.ok []) (fun _ => [])
    (fun _ => EmbedOutcome.gerr "internal failure") ["doc.pdf"] [] true 3 5
    (fun _ => "unused") "internal failure" rfl (by decide)).2
    ⟨rfl, by decide, by decide⟩
  exact ⟨⟨ha.1.trans (by decide), ha.2.1.trans (by decide), ha.2.2⟩,
    ⟨hb.1.trans (by decide), hb.2.1, hb.2.2⟩⟩

/-! ## C2: load failure of a persisted index does not fall through -/

/-- C2, evaluated at the failing input: with `from_session_state` true, the
persisted directory present and the `Chroma` load raising, `get_vectorstore`
does NOT rebuild — the rebuild guard
`not from_session_state or not os.path.exists(...)` is false — and the
function returns `None` (line 150). The same environment with
`from_session_state` false rebuilds successfully, showing the documents
were buildable. This contradicts the fall-through comment and log message
at lines 87-88 of prepare_vectordb.py. -/
theorem load_failure_returns_none :
    (get_vectorstore true true (fun _ => Except.ok [⟨"a.pdf", 0⟩]) (fun d => [d])
        (fun _ => EmbedOutcome.ok) ["a.pdf"] true 3 5).result = VdbResult.noneResult ∧
    (get_vectorstore true true (fun _ => Except.ok [⟨"a.pdf", 0⟩]) (fun d => [d])
        (fun _ => EmbedOutcome.ok) ["a.pdf"] false 3 5).result = VdbResult.built 0 := by
  decide

/-! ## C5: empty file list -/

/-- Counterexample to C5 as stated: `get_vectorstore` itself, given an
empty file list on the rebuild path, does not report any "no documents"
condition — it proceeds to submit the empty chunk list for embedding
(one `Chroma.from_documents` call) and returns the resulting (empty)
index. -/
theorem empty_list_embedded_not_reported :
    (get_vectorstore false false (fun _ => Except.ok [⟨"x", 0⟩]) (fun d => [d])
        (fun _ => EmbedOutcome.ok) [] true 3 5).chunksSubmitted = some [] ∧
    (get_vectorstore false false (fun _ => Except.ok [⟨"x", 0⟩]) (fun d => [d])
        (fun _ => EmbedOutcome.ok) [] true 3 5).embedCalls = 1 ∧
    (get_vectorstore false false (fun _ => Except.ok [⟨"x", 0⟩]) (fun d => [d])
        (fun _ => EmbedOutcome.ok) [] true 3 5).result = VdbResult.built 0 := by
  decide

/-- C5 (amended): PDF extraction of an empty file list returns an empty
document list without error, and the distinct "no documents" condition is
reported by the caller — `HealthAssistantAPI.__init__` raises it for an
empty docs folder before `get_vectorstore` is ever called — while
`get_vectorstore` itself would proceed to submit an empty chunk list. -/
theorem empty_file_list_spec (persistExists loadFails : Bool)
    (loadPdf : String → Except String (List Doc)) (splitDoc : Doc → List Chunk)
    (embed : Nat → EmbedOutcome) :
    extract_pdf_text loadPdf [] = Except.ok [] ∧
    healthAssistantInit persistExists loadFails loadPdf splitDoc embed [] =
      Except.error noDocsMsg ∧
    (get_vectorstore false loadFails loadPdf splitDoc embed [] true 3 5).chunksSubmitted =
      some [] := by
  refine ⟨rfl, rfl, ?_⟩
  rfl

end RagChatBot
